import Mathlib

/-!
Verification development for the kolesa-parse crawler (`src/parser.py`).

The program is embedded shallowly:
* text is modelled as `List Char` (`Str`); Python's substring test `in`
  becomes `containsSub`;
* the HTML DOM produced by the external BeautifulSoup library is modelled
  as an abstract tree `Dom` (the library itself is outside the repository,
  so an HTML page is represented by its raw text together with its parsed
  tree);
* file writes are modelled as pure content values, and the main loop as a
  recursion over the list of page indices, driven by an oracle giving the
  outcome of each fetch; the side effects of one run are collected in an
  event trace.
Python-specific details that the embedding fixes: `str.strip` strips ASCII
whitespace, `str.isdigit` / the regex class `\d` are restricted to ASCII
digits, and truthiness of an optional string means "present and non-empty".
-/

abbrev Str := List Char

/-- Coerce a Lean string literal to the character-list representation. -/
def chars (s : String) : Str := s.data

/-- `beginsWith s pat`: `pat` occurs at the very start of `s`
(Python `s.startswith(pat)`). -/
def beginsWith : Str → Str → Bool
  | _, [] => true
  | [], _ :: _ => false
  | c :: s, p :: ps => (c == p) && beginsWith s ps

/-- `containsSub s pat`: `pat` occurs somewhere inside `s`
(Python `pat in s`). -/
def containsSub : Str → Str → Bool
  | [], pat => pat.isEmpty
  | c :: t, pat => beginsWith (c :: t) pat || containsSub t pat

/-- Python `str.strip()` (ASCII whitespace). -/
def py_strip (s : Str) : Str :=
  ((s.dropWhile Char.isWhitespace).reverse.dropWhile Char.isWhitespace).reverse

/-- Python `str.isdigit()` restricted to ASCII digits: non-empty and all
characters are digits. -/
def py_isdigit (s : Str) : Bool := !s.isEmpty && s.all Char.isDigit

/-- Python `int(...)` on a string of decimal digits. -/
def digits_to_nat (s : Str) : Nat :=
  s.foldl (fun n c => 10 * n + (c.toNat - 48)) 0

/-- Python `range(a, b)` as a list. -/
def py_range (a b : Nat) : List Nat := List.range' a (b - a)

/-- `src/parser.py`: `BASE_URL = "https://kolesa.kz"`. -/
def BASE_URL : Str := chars "https://kolesa.kz"

/-- `src/parser.py`: `MAX_PAGES = 200`. -/
def MAX_PAGES : Nat := 200

/-- `src/parser.py`: `STOP_AFTER_BLOCKS = 5`. -/
def STOP_AFTER_BLOCKS : Nat := 5

/-- `src/parser.py` `is_listings_page(html)`: substring heuristics on the
raw HTML. -/
def is_listings_page (html : Str) : Bool :=
  if containsSub html (chars "a-card__title") && containsSub html (chars "a-card__link") then
    true
  else if containsSub html (chars "a-elem") &&
      (containsSub html (chars "a-el-info-title") || containsSub html (chars "a-el-info-price")) then
    true
  else
    false

example : is_listings_page (chars "xx a-card__title yy a-card__link zz") = true := by decide
example : is_listings_page (chars "a-elem .. a-el-info-price") = true := by decide
example : is_listings_page (chars "<html>captcha</html>") = false := by decide
example : py_strip (chars "  12 ") = chars "12" := by decide
example : py_isdigit (chars "37") = true := by decide
example : py_isdigit (chars "") = false := by decide
example : digits_to_nat (chars "1250") = 1250 := by decide
example : py_range 2 6 = [2, 3, 4, 5] := by decide

/-- Abstract DOM tree: the result of parsing HTML with the external
BeautifulSoup library (which is outside this repository). An element node
carries its tag, its list of CSS classes, its attributes and its children;
a text node carries its text. A whole document is a `List Dom` of
top-level nodes. -/
inductive Dom where
  | elem (tag : String) (classes : List String) (attrs : List (String × Str)) (children : List Dom)
  | text (s : Str)

/-- Children of a node (a text node has none). -/
def childrenOf : Dom → List Dom
  | .elem _ _ _ ch => ch
  | .text _ => []

/-- Attribute lookup, `tag.get(key)` in BeautifulSoup. -/
def attrOf (d : Dom) (key : String) : Option Str :=
  match d with
  | .elem _ _ attrs _ => (attrs.find? (fun kv => kv.1 == key)).map (fun kv => kv.2)
  | .text _ => none

/-- Element with the given tag and the given CSS class among its classes —
BeautifulSoup `find(tag, class_=cls)` / CSS `tag.cls` matching. -/
def tagClassP (tag cls : String) : Dom → Bool
  | .elem t cs _ _ => t == tag && cs.contains cls
  | .text _ => false

/-- Element with the given tag (any classes). -/
def tagP (tag : String) : Dom → Bool
  | .elem t _ _ _ => t == tag
  | .text _ => false

/-- Element carrying the given CSS class — CSS `.cls` matching. -/
def classP (cls : String) : Dom → Bool
  | .elem _ cs _ _ => cs.contains cls
  | .text _ => false

mutual
/-- First node satisfying `p` in the subtree rooted at `d` (the node
itself included), in document (pre-)order. -/
def findFirst (p : Dom → Bool) : Dom → Option Dom
  | .elem t cs a ch =>
      if p (.elem t cs a ch) then some (.elem t cs a ch) else findFirstList p ch
  | .text s => if p (.text s) then some (.text s) else none

/-- First node satisfying `p` among the given nodes and their subtrees, in
document order. Applied to `childrenOf d` this is BeautifulSoup
`d.find(...)` (descendants only); applied to a document it searches the
whole document. -/
def findFirstList (p : Dom → Bool) : List Dom → Option Dom
  | [] => none
  | d :: ds =>
      match findFirst p d with
      | some r => some r
      | none => findFirstList p ds
end

mutual
/-- All nodes satisfying `p` in the subtree rooted at `d` (the node itself
included), in document order; nested matches are all reported, as
BeautifulSoup `find_all` / CSS `select` do. -/
def findAll (p : Dom → Bool) : Dom → List Dom
  | .elem t cs a ch =>
      (if p (.elem t cs a ch) then [Dom.elem t cs a ch] else []) ++ findAllList p ch
  | .text s => if p (.text s) then [Dom.text s] else []

/-- All nodes satisfying `p` among the given nodes and their subtrees. -/
def findAllList (p : Dom → Bool) : List Dom → List Dom
  | [] => []
  | d :: ds => findAll p d ++ findAllList p ds
end

mutual
/-- The strings of all text nodes of the subtree, in document order
(BeautifulSoup `strings`). -/
def allStrings : Dom → List Str
  | .elem _ _ _ ch => allStringsList ch
  | .text s => [s]

def allStringsList : List Dom → List Str
  | [] => []
  | d :: ds => allStrings d ++ allStringsList ds
end

/-- `sep.join(parts)`. -/
def joinSep (sep : Str) : List Str → Str
  | [] => []
  | [s] => s
  | s :: t :: rest => s ++ sep ++ joinSep sep (t :: rest)

/-- BeautifulSoup `get_text()`: concatenation of all text-node strings. -/
def textContent (d : Dom) : Str := joinSep [] (allStrings d)

/-- BeautifulSoup `get_text(sep, strip=True)`: each text-node string is
stripped, empty pieces are dropped, the rest are joined with `sep`. -/
def get_text_strip (sep : Str) (d : Dom) : Str :=
  joinSep sep (((allStrings d).map py_strip).filter (fun s => !s.isEmpty))

/-- Python `a or b` on two BeautifulSoup `find` results (a found tag is
always truthy). -/
def py_or (a b : Option Dom) : Option Dom :=
  match a with
  | some x => some x
  | none => b

/-- `src/parser.py` `pages_count`, step 1: the pager element —
`soup.find("div", class_="pager") or soup.find("nav", class_="pager")`. -/
def pager_of (doc : List Dom) : Option Dom :=
  py_or (findFirstList (tagClassP "div" "pager") doc)
        (findFirstList (tagClassP "nav" "pager") doc)

/-- `src/parser.py` `pages_count`, step 2: the numeric labels of the
pager's anchors — for each `a` in `pager.find_all("a")`, take
`(a.get_text() or "").strip()` and keep `int(t)` when `t.isdigit()`. -/
def pager_nums (pg : Dom) : List Nat :=
  (((findAllList (tagP "a") (childrenOf pg)).map
      (fun a => py_strip (textContent a))).filter py_isdigit).map digits_to_nat

/-- The numeric pager labels of a document, `none` when there is no pager
control at all. -/
def pager_nums_doc (doc : List Dom) : Option (List Nat) :=
  (pager_of doc).map pager_nums

/-- `src/parser.py` `pages_count(html)`: `1` without a pager or numeric
labels, otherwise `min(max(nums), MAX_PAGES)`. -/
def pages_count (doc : List Dom) : Nat :=
  match pager_of doc with
  | none => 1
  | some pg =>
      match pager_nums pg with
      | [] => 1
      | n :: ns => min (ns.foldl Nat.max n) MAX_PAGES

example :
    pages_count [Dom.elem "div" ["pager"] []
      [Dom.elem "a" [] [] [Dom.text (chars "2")],
       Dom.elem "a" [] [] [Dom.text (chars "37")],
       Dom.elem "a" [] [] [Dom.text (chars "next")]]] = 37 := by decide

example : pages_count [Dom.elem "div" ["content"] [] []] = 1 := by decide

/-- Listing record (`src/parser.py`, the dicts built by the card
extractors): `price` is `None` or an integer, the remaining optional
fields are `None` or text. -/
structure Record where
  name : Str
  price : Option Nat
  price_raw : Option Str
  desc : Option Str
  link : Option Str
deriving DecidableEq

/-- `src/parser.py` `_norm_price(text)`: `None` on falsy input, else strip
every non-digit character and parse what remains (`None` when nothing
remains). -/
def _norm_price (text : Str) : Option Nat :=
  if text.isEmpty then none
  else
    let digits := text.filter Char.isDigit
    if digits.isEmpty then none else some (digits_to_nat digits)

/-- `price = _norm_price(price_raw) if price_raw else None` — Python
truthiness of the optional string `price_raw`. -/
def price_from_raw (price_raw : Option Str) : Option Nat :=
  match price_raw with
  | none => none
  | some t => if t.isEmpty then none else _norm_price t

/-- `src/parser.py` `parse_cards_new`, title lookup:
`c.select_one("h5.a-card__title a.a-card__link")` — the first
`a.a-card__link` inside an `h5.a-card__title` descendant of the card. -/
def selectTitleLink (c : Dom) : Option Dom :=
  (findAllList (tagClassP "h5" "a-card__title") (childrenOf c)).findSome?
    (fun h => findFirstList (tagClassP "a" "a-card__link") (childrenOf h))

/-- `src/parser.py` `parse_cards_new`, price lookup:
`c.select_one(".a-card__price, .price, .price-in-list .price")`. The third
alternative `.price-in-list .price` only matches elements that `.price`
already matches, so the union reduces to the first two classes. -/
def selectPriceNodeNew (c : Dom) : Option Dom :=
  findFirstList (fun d => classP "a-card__price" d || classP "price" d) (childrenOf c)

/-- `src/parser.py` `parse_cards_new`, description lookup:
`c.select_one(".a-card__description, .a-card__subtitle, .card__description")`. -/
def selectDescNodeNew (c : Dom) : Option Dom :=
  findFirstList
    (fun d => classP "a-card__description" d || classP "a-card__subtitle" d ||
      classP "card__description" d)
    (childrenOf c)

/-- One iteration of the `src/parser.py` `parse_cards_new` loop on a card
`c`: `None` when the card is skipped (`continue`), otherwise the record
appended to the output. -/
def card_new (c : Dom) : Option Record :=
  match selectTitleLink c with
  | none => none
  | some title_a =>
      let name := get_text_strip [] title_a
      let link : Option Str :=
        match attrOf title_a "href" with
        | none => none
        | some href =>
            if !href.isEmpty && beginsWith href (chars "/") then some (BASE_URL ++ href)
            else some href
      let price_raw := (selectPriceNodeNew c).map (get_text_strip (chars " "))
      let price := price_from_raw price_raw
      let desc := (selectDescNodeNew c).map (get_text_strip (chars " "))
      some { name := name, price := price, price_raw := price_raw, desc := desc, link := link }

/-- `src/parser.py` `parse_cards_new(soup)`: iterate over
`soup.select("div.a-card")` collecting the records of `card_new`. -/
def parse_cards_new (doc : List Dom) : List Record :=
  (findAllList (tagClassP "div" "a-card") doc).filterMap card_new

/-- One iteration of the `src/parser.py` `parse_cards_old` loop on a block
`b`: the record is kept only `if name:` — name present and non-empty. -/
def card_old (b : Dom) : Option Record :=
  let title_a := py_or (findFirstList (tagClassP "a" "a-el-info-title") (childrenOf b))
                       (findFirstList (tagClassP "span" "a-el-info-title") (childrenOf b))
  let name := title_a.map (get_text_strip [])
  let price_node := py_or (findFirstList (tagClassP "span" "a-el-info-price") (childrenOf b))
                          (findFirstList (tagClassP "span" "price") (childrenOf b))
  let price_raw := price_node.map (get_text_strip (chars " "))
  let price := price_from_raw price_raw
  let link : Option Str :=
    match title_a with
    | none => none
    | some t =>
        match attrOf t "href" with
        | none => none
        | some href =>
            if href.isEmpty then none
            else if beginsWith href (chars "/") then some (BASE_URL ++ href)
            else some href
  let desc_node := py_or (findFirstList (tagClassP "div" "a-el-info-description") (childrenOf b))
                         (findFirstList (tagClassP "div" "a-search-description") (childrenOf b))
  let desc := desc_node.map (get_text_strip (chars " "))
  match name with
  | none => none
  | some n =>
      if n.isEmpty then none
      else some { name := n, price := price, price_raw := price_raw, desc := desc, link := link }

/-- `src/parser.py` `parse_cards_old(soup)`: iterate over
`soup.find_all("div", {"class": "a-elem"})` collecting the records of
`card_old`. -/
def parse_cards_old (doc : List Dom) : List Record :=
  (findAllList (tagClassP "div" "a-elem") doc).filterMap card_old

/-- `src/parser.py` `parse_listings(html)`: extend with the new-schema
records, and only when that left the list empty extend with the old-schema
records. -/
def parse_listings (doc : List Dom) : List Record :=
  let data := ([] : List Record) ++ parse_cards_new doc
  if data.isEmpty then data ++ parse_cards_old doc else data

example :
    parse_cards_new
      [Dom.elem "div" ["a-card"] []
        [Dom.elem "h5" ["a-card__title"] []
          [Dom.elem "a" ["a-card__link"] [("href", chars "/a/show/123")]
            [Dom.text (chars "Toyota Camry")]],
         Dom.elem "span" ["a-card__price"] [] [Dom.text (chars "12 500 000 ₸")],
         Dom.elem "div" ["a-card__description"] [] [Dom.text (chars "Almaty")]]] =
    [{ name := chars "Toyota Camry", price := some 12500000,
       price_raw := some (chars "12 500 000 ₸"), desc := some (chars "Almaty"),
       link := some (chars "https://kolesa.kz/a/show/123") }] := by decide

example :
    parse_cards_old
      [Dom.elem "div" ["a-elem"] []
        [Dom.elem "span" ["a-el-info-title"] [] [Dom.text (chars "Lada")],
         Dom.elem "span" ["price"] [] [Dom.text (chars "без цены")]]] =
    [{ name := chars "Lada", price := none, price_raw := some (chars "без цены"),
       desc := none, link := none }] := by decide

/-- CSV field quoting of the Python `csv` default dialect
(`QUOTE_MINIMAL`): a field is quoted when it contains the delimiter, the
quote character or a line-break character, and embedded quote characters
are doubled. -/
def csv_quote (s : Str) : Str :=
  if s.any (fun c => c == ',' || c == '"' || c == '\r' || c == '\n') then
    '"' :: (s.flatMap (fun c => if c == '"' then ['"', '"'] else [c])) ++ ['"']
  else s

/-- A `None` optional integer field is written as the empty string, an
integer as its decimal digits. -/
def csv_field_nat : Option Nat → Str
  | none => []
  | some n => (Nat.repr n).data

/-- A `None` optional text field is written as the empty string. -/
def csv_field_str : Option Str → Str
  | none => []
  | some s => s

/-- One CSV data row for a record, fields in the order
`name, price, price_raw, desc, link`. -/
def csv_row (r : Record) : Str :=
  joinSep (chars ",")
    [csv_quote r.name, csv_quote (csv_field_nat r.price),
     csv_quote (csv_field_str r.price_raw), csv_quote (csv_field_str r.desc),
     csv_quote (csv_field_str r.link)]

/-- The header row written by `csv.DictWriter.writeheader` for the field
list of `src/parser.py` `save_to_csv`. -/
def csv_header : Str := chars "name,price,price_raw,desc,link"

/-- The rows of the file written by `src/parser.py` `save_to_csv`: the
header followed by one data row per record, in order. -/
def csv_lines (rows : List Record) : List Str :=
  csv_header :: rows.map csv_row

/-- `src/parser.py` `save_to_csv(rows, filename)`: the file is opened with
mode `"w"`, so the previous content of `filename` is discarded and the
file holds exactly `csv_lines rows` afterwards; other files are
untouched. The file system is modelled as a map from names to contents. -/
def save_to_csv (rows : List Record) (filename : String)
    (fs : String → Option (List Str)) : String → Option (List Str) :=
  fun n => if n = filename then some (csv_lines rows) else fs n

/-- `src/parser.py` `save_debug_html`: the name of the debug file for a
page number. -/
def debug_fname (page_no : Nat) : Str :=
  chars "debug_page_" ++ (Nat.repr page_no).data ++ chars ".html"

/-- `src/parser.py` `save_debug_html(page_no, status_code, final_url,
html)`: the pair (file name, file content); the content is the HTML
prefixed with a comment line recording the HTTP status and final URL. -/
def save_debug_html (page_no status_code : Nat) (final_url html : Str) : Str × Str :=
  (debug_fname page_no,
   chars "<!-- status_code=" ++ (Nat.repr status_code).data ++
     chars " final_url=" ++ final_url ++ chars " -->" ++ ['\n'] ++ html)

/-- A fetched page: its raw text (fed to `is_listings_page`) together with
its BeautifulSoup parse (fed to the extractors and the paginator). The
external HTML parser relating the two is not modelled. -/
structure Page where
  raw : Str
  doc : List Dom

/-- Outcome of `fetch` for one page: either a `requests.RequestException`
(`exn`) or a status code, final URL and body. -/
inductive FetchOutcome where
  | exn
  | ok (status : Nat) (final_url : Str) (page : Page)

/-- Observable side effects of a run, in order: a page fetch was issued, a
debug HTML file was written, a CSV file was written. -/
inductive Event where
  | fetched (page_no : Nat)
  | debugSaved (fname content : Str)
  | csvSaved (filename : String) (rows : List Record)
deriving DecidableEq

/-- Result of one iteration of the page loop: `stop` breaks out of the
loop, `next` continues with the new counter and accumulated rows; both
carry the iteration's events. -/
inductive StepRes where
  | stop (events : List Event)
  | next (blocks : Nat) (rows : List Record) (events : List Event)
deriving DecidableEq

/-- One iteration of the `src/parser.py` `main` loop body for page `i`,
with `consecutive_blocks = blocks` and `all_rows = rows`:
* a `requests.RequestException` is logged and the loop continues with the
  state unchanged;
* a page that fails `is_listings_page` increments the counter, writes a
  debug file, and breaks the loop when the counter reaches
  `STOP_AFTER_BLOCKS`;
* a listings page resets the counter to zero, appends the parsed records,
  and every 20th page writes the partial CSV snapshot. -/
def loop_step (fetchPage : Nat → FetchOutcome) (i blocks : Nat) (rows : List Record) : StepRes :=
  match fetchPage i with
  | .exn => .next blocks rows [.fetched i]
  | .ok status final_url page =>
      if !is_listings_page page.raw then
        let blocks' := blocks + 1
        let dbg := save_debug_html i status final_url page.raw
        let evs := [Event.fetched i, Event.debugSaved dbg.1 dbg.2]
        if STOP_AFTER_BLOCKS ≤ blocks' then .stop evs else .next blocks' rows evs
      else
        let rows' := rows ++ parse_listings page.doc
        let evs := [Event.fetched i] ++
          (if i % 20 = 0 then [Event.csvSaved "cars_kolesa_partial.csv" rows'] else [])
        .next 0 rows' evs

/-- Full result of running the page loop: the events, the final
accumulated rows, and — for stating the loop invariant — the value of
`consecutive_blocks` at the head of each executed iteration. -/
structure LoopOut where
  events : List Event
  rows : List Record
  heads : List Nat
deriving DecidableEq

/-- The `for i in range(2, last_page + 1)` loop of `src/parser.py` `main`,
over the remaining list of page indices. -/
def crawl_loop (fetchPage : Nat → FetchOutcome) :
    List Nat → Nat → List Record → LoopOut
  | [], _, rows => ⟨[], rows, []⟩
  | i :: rest, blocks, rows =>
      match loop_step fetchPage i blocks rows with
      | .stop evs => ⟨evs, rows, [blocks]⟩
      | .next blocks' rows' evs =>
          let out := crawl_loop fetchPage rest blocks' rows'
          ⟨evs ++ out.events, out.rows, blocks :: out.heads⟩

/-- `src/parser.py` `main()`, given the first page's fetch result and the
fetch oracle for the remaining pages, as its event trace. If the first
page fails classification the run stops at once with a single debug file
and no CSV; otherwise the loop runs over pages `2 .. pages_count` and a
final CSV write always follows. -/
def main_run (first_status : Nat) (first_url : Str) (first_page : Page)
    (fetchPage : Nat → FetchOutcome) : List Event :=
  if !is_listings_page first_page.raw then
    let dbg := save_debug_html 1 first_status first_url first_page.raw
    [Event.fetched 1, Event.debugSaved dbg.1 dbg.2]
  else
    let last_page := pages_count first_page.doc
    let all_rows := ([] : List Record) ++ parse_listings first_page.doc
    let out := crawl_loop fetchPage (py_range 2 (last_page + 1)) 0 all_rows
    [Event.fetched 1] ++ out.events ++ [Event.csvSaved "cars_kolesa.csv" out.rows]

/-! Helper lemmas. -/

theorem beginsWith_append (h s pat : Str) (hb : beginsWith h pat = true) :
    beginsWith (h ++ s) pat = true := by
  induction pat generalizing h with
  | nil => cases h <;> simp [beginsWith]
  | cons p ps ih =>
    cases h with
    | nil => simp [beginsWith] at hb
    | cons c t =>
      simp only [beginsWith, Bool.and_eq_true] at hb
      simp only [List.cons_append, beginsWith, Bool.and_eq_true]
      exact ⟨hb.1, ih t hb.2⟩

theorem containsSub_nil_pat (s : Str) : containsSub s [] = true := by
  cases s <;> simp [containsSub, beginsWith, List.isEmpty]

theorem containsSub_append_right (h s pat : Str) (hc : containsSub h pat = true) :
    containsSub (h ++ s) pat = true := by
  induction h with
  | nil =>
    simp only [containsSub, List.isEmpty_iff] at hc
    subst hc
    simpa using containsSub_nil_pat s
  | cons c t ih =>
    simp only [containsSub, Bool.or_eq_true] at hc
    simp only [List.cons_append, containsSub, Bool.or_eq_true]
    cases hc with
    | inl hb => exact Or.inl (by simpa using beginsWith_append (c :: t) s pat hb)
    | inr hr => exact Or.inr (ih hr)

theorem containsSub_append_left (p h pat : Str) (hc : containsSub h pat = true) :
    containsSub (p ++ h) pat = true := by
  induction p with
  | nil => simpa using hc
  | cons c t ih =>
    simp only [List.cons_append, containsSub, Bool.or_eq_true]
    exact Or.inr ih

/-- The classifier as one boolean expression over the five marker
substrings. -/
theorem is_listings_page_eq (html : Str) :
    is_listings_page html =
      (containsSub html (chars "a-card__title") && containsSub html (chars "a-card__link") ||
       containsSub html (chars "a-elem") &&
         (containsSub html (chars "a-el-info-title") || containsSub html (chars "a-el-info-price"))) := by
  unfold is_listings_page
  cases h1 : containsSub html (chars "a-card__title") &&
      containsSub html (chars "a-card__link") <;>
    cases h2 : containsSub html (chars "a-elem") &&
        (containsSub html (chars "a-el-info-title") ||
          containsSub html (chars "a-el-info-price")) <;>
      simp [h1, h2]

/-- C8: for every HTML input that contains neither the primary structural
markers (`a-card__title` together with `a-card__link`) nor the legacy
markers (`a-elem` together with `a-el-info-title` or `a-el-info-price`),
`is_listings_page` returns false. -/
theorem is_listings_page_false_without_markers (html : Str)
    (h1 : ¬ (containsSub html (chars "a-card__title") = true ∧
             containsSub html (chars "a-card__link") = true))
    (h2 : ¬ (containsSub html (chars "a-elem") = true ∧
             (containsSub html (chars "a-el-info-title") = true ∨
              containsSub html (chars "a-el-info-price") = true))) :
    is_listings_page html = false := by
  rw [is_listings_page_eq]
  simp only [Bool.or_eq_false_iff, Bool.and_eq_false_iff]
  constructor
  · by_cases ha : containsSub html (chars "a-card__title") = true
    · right
      by_cases hb : containsSub html (chars "a-card__link") = true
      · exact absurd ⟨ha, hb⟩ h1
      · simpa using hb
    · left
      simpa using ha
  · by_cases ha : containsSub html (chars "a-elem") = true
    · right
      by_cases hb : (containsSub html (chars "a-el-info-title") ||
          containsSub html (chars "a-el-info-price")) = true
      · rw [Bool.or_eq_true] at hb
        exact absurd ⟨ha, hb⟩ h2
      · simpa using hb
    · left
      simpa using ha

theorem is_listings_page_false_without_markers_witness :
    is_listings_page (chars "<html>robot check</html>") = false :=
  is_listings_page_false_without_markers (chars "<html>robot check</html>")
    (by decide) (by decide)

/-- C10: `is_listings_page` is monotone under string containment — if it
accepts `h` it accepts `p ++ h ++ s` for every surrounding text, so any
response merely containing the marker substrings anywhere classifies as a
listings page. -/
theorem is_listings_page_mono (p h s : Str) (hl : is_listings_page h = true) :
    is_listings_page (p ++ h ++ s) = true := by
  rw [is_listings_page_eq] at hl ⊢
  have emb : ∀ pat : Str, containsSub h pat = true →
      containsSub (p ++ h ++ s) pat = true := by
    intro pat hc
    rw [List.append_assoc]
    exact containsSub_append_left p (h ++ s) pat (containsSub_append_right h s pat hc)
  simp only [Bool.or_eq_true, Bool.and_eq_true] at hl ⊢
  rcases hl with ⟨ha, hb⟩ | ⟨ha, hb⟩
  · exact Or.inl ⟨emb _ ha, emb _ hb⟩
  · refine Or.inr ⟨emb _ ha, ?_⟩
    rcases hb with hb | hb
    · exact Or.inl (emb _ hb)
    · exact Or.inr (emb _ hb)

theorem foldl_max_ge (ns : List Nat) (n : Nat) :
    n ≤ ns.foldl Nat.max n ∧ ∀ m ∈ ns, m ≤ ns.foldl Nat.max n := by
  induction ns generalizing n with
  | nil => simp
  | cons b t ih =>
    have h1 := ih (Nat.max n b)
    refine ⟨le_trans (Nat.le_max_left n b) h1.1, ?_⟩
    intro m hm
    rcases List.mem_cons.mp hm with rfl | hm
    · exact le_trans (Nat.le_max_right n m) h1.1
    · exact h1.2 m hm

/-- A pagination control whose single numeric anchor label is `0`. -/
def pagerZeroDoc : List Dom :=
  [Dom.elem "div" ["pager"] [] [Dom.elem "a" [] [] [Dom.text (chars "0")]]]

/-- C3, counterexample: `pages_count` is not clamped from below — on a
document with a pagination control whose numeric anchor labels are
exactly `[0]`, it returns `0`, which is less than `1`. -/
theorem pages_count_below_one_counterexample :
    pager_nums_doc pagerZeroDoc = some [0] ∧ pages_count pagerZeroDoc = 0 := by
  decide

/-- C3, amended: `pages_count` never exceeds `MAX_PAGES`; it returns `1`
when the pagination control or its purely-numeric anchor labels are
absent; otherwise it returns the maximum of the numeric labels clamped
from above by `MAX_PAGES` — and that result is at least `1` provided some
numeric label is at least `1` (with a label list like `[0]` the result is
`0`, as the counterexample shows). -/
theorem pages_count_amended (doc : List Dom) :
    pages_count doc ≤ MAX_PAGES ∧
    (pager_nums_doc doc = none → pages_count doc = 1) ∧
    (pager_nums_doc doc = some [] → pages_count doc = 1) ∧
    (∀ n ns, pager_nums_doc doc = some (n :: ns) →
      pages_count doc = min (ns.foldl Nat.max n) MAX_PAGES ∧
      ∀ m ∈ n :: ns, 1 ≤ m → 1 ≤ pages_count doc) := by
  unfold pages_count pager_nums_doc
  cases hp : pager_of doc with
  | none => simp [MAX_PAGES]
  | some pg =>
    cases hn : pager_nums pg with
    | nil => simp [hn, MAX_PAGES]
    | cons n ns =>
      refine ⟨?_, ?_, ?_, ?_⟩
      · simp only [hn]
        exact Nat.min_le_right _ _
      · intro h
        simp at h
      · intro h
        simp [hn] at h
      · intro n' ns' h
        simp [hn] at h
        obtain ⟨rfl, rfl⟩ := h
        refine ⟨by simp only [hn], ?_⟩
        intro m hm h1m
        simp only [hn]
        have hle : m ≤ ns.foldl Nat.max n := by
          rcases List.mem_cons.mp hm with rfl | hm2
          · exact (foldl_max_ge ns m).1
          · exact (foldl_max_ge ns n).2 m hm2
        exact le_min (le_trans h1m hle) (by simp [MAX_PAGES])

theorem pages_count_amended_witness :
    pages_count [Dom.elem "div" ["pager"] []
        [Dom.elem "a" [] [] [Dom.text (chars "3")],
         Dom.elem "a" [] [] [Dom.text (chars "7")]]] =
      min ([7].foldl Nat.max 3) MAX_PAGES ∧
    1 ≤ pages_count [Dom.elem "div" ["pager"] []
        [Dom.elem "a" [] [] [Dom.text (chars "3")],
         Dom.elem "a" [] [] [Dom.text (chars "7")]]] ∧
    pages_count [Dom.elem "p" [] [] []] = 1 :=
  ⟨((pages_count_amended _).2.2.2 3 [7] (by decide)).1,
   ((pages_count_amended _).2.2.2 3 [7] (by decide)).2 3 (by decide) (by decide),
   (pages_count_amended [Dom.elem "p" [] [] []]).2.1 (by decide)⟩

theorem price_from_raw_eq_bind (pr : Option Str) :
    price_from_raw pr = Option.bind pr _norm_price := by
  cases pr with
  | none => rfl
  | some t =>
    cases ht : t.isEmpty with
    | false => simp [price_from_raw, ht]
    | true =>
      obtain rfl : t = [] := by simpa using ht
      simp [price_from_raw, _norm_price]

theorem card_new_price_from_raw (c : Dom) (r : Record) (h : card_new c = some r) :
    r.price = price_from_raw r.price_raw := by
  unfold card_new at h
  cases hsel : selectTitleLink c with
  | none => rw [hsel] at h; cases h
  | some title_a =>
    rw [hsel] at h
    simp only [Option.some.injEq] at h
    subst h
    rfl

/-- A new-schema card whose price node text contains no digit characters. -/
def noDigitPriceDoc : List Dom :=
  [Dom.elem "div" ["a-card"] []
    [Dom.elem "h5" ["a-card__title"] []
      [Dom.elem "a" ["a-card__link"] [] [Dom.text (chars "Nissan")]],
     Dom.elem "span" ["a-card__price"] [] [Dom.text (chars "договорная")]]]

/-- C4: price normalization strips every non-digit character and parses
the remaining digits: on `"12 500 000 ₸"` it yields `12500000`; on any
text containing no digit it yields `none`; in every record the normalized
price is computed from the retained raw price text, and a concrete card
with a digit-free price text keeps its raw text verbatim while its
normalized price is absent. -/
theorem norm_price_spec :
    _norm_price (chars "12 500 000 ₸") = some 12500000 ∧
    (∀ t : Str, (∀ c ∈ t, c.isDigit = false) → _norm_price t = none) ∧
    (∀ doc : List Dom, ∀ r ∈ parse_cards_new doc,
      r.price = Option.bind r.price_raw _norm_price) ∧
    parse_cards_new noDigitPriceDoc =
      [{ name := chars "Nissan", price := none,
         price_raw := some (chars "договорная"), desc := none, link := none }] := by
  refine ⟨by decide, ?_, ?_, by decide⟩
  · intro t ht
    have hf : t.filter Char.isDigit = [] := by
      rw [List.filter_eq_nil_iff]
      intro a ha
      simp [ht a ha]
    simp [_norm_price, hf]
  · intro doc r hr
    rw [parse_cards_new] at hr
    obtain ⟨c, hc, hcr⟩ := List.mem_filterMap.mp hr
    rw [← price_from_raw_eq_bind]
    exact card_new_price_from_raw c r hcr

theorem norm_price_spec_witness :
    _norm_price (chars "нет цифр!") = none ∧
    ({ name := chars "Nissan", price := none, price_raw := some (chars "договорная"),
       desc := none, link := none } : Record).price =
      Option.bind (some (chars "договорная")) _norm_price :=
  ⟨norm_price_spec.2.1 (chars "нет цифр!") (by decide),
   norm_price_spec.2.2.1 noDigitPriceDoc _ (by decide)⟩

/-- A document containing one new-schema card. -/
def newSchemaDoc : List Dom :=
  [Dom.elem "div" ["a-card"] []
    [Dom.elem "h5" ["a-card__title"] []
      [Dom.elem "a" ["a-card__link"] [] [Dom.text (chars "Toyota")]]]]

/-- A document containing one legacy-schema card and no new-schema card. -/
def oldSchemaDoc : List Dom :=
  [Dom.elem "div" ["a-elem"] []
    [Dom.elem "span" ["a-el-info-title"] [] [Dom.text (chars "Lada")]]]

/-- C5: `parse_listings` returns the primary (new-schema) records whenever
there is at least one, and exactly when there are none it returns the
legacy records — never a union of the two. -/
theorem parse_listings_fallback (doc : List Dom) :
    (parse_cards_new doc ≠ [] → parse_listings doc = parse_cards_new doc) ∧
    (parse_cards_new doc = [] → parse_listings doc = parse_cards_old doc) := by
  constructor
  · intro h
    have hne : (parse_cards_new doc).isEmpty = false := by
      cases hh : parse_cards_new doc
      · exact absurd hh h
      · rfl
    simp [parse_listings, hne]
  · intro h
    simp [parse_listings, h]

theorem parse_listings_fallback_witness :
    parse_listings newSchemaDoc = parse_cards_new newSchemaDoc ∧
    parse_listings oldSchemaDoc = parse_cards_old oldSchemaDoc :=
  ⟨(parse_listings_fallback newSchemaDoc).1 (by decide),
   (parse_listings_fallback oldSchemaDoc).2 (by decide)⟩

/-- A new-schema card whose title link exists but has empty text. -/
def emptyTitleCardDoc : List Dom :=
  [Dom.elem "div" ["a-card"] []
    [Dom.elem "h5" ["a-card__title"] []
      [Dom.elem "a" ["a-card__link"] [] []]]]

/-- C6, counterexample: the new-schema extractor does not skip cards whose
required name is empty — a card whose title link is present but has no
text produces a record whose name is the empty string. -/
theorem parse_cards_new_empty_name_counterexample :
    (parse_cards_new emptyTitleCardDoc).map Record.name = [[]] := by decide

/-- C6, amended: the legacy extractor skips cards with a missing or empty
name, so all its records have non-empty names; the new-schema extractor
skips exactly the cards lacking a title-link node (a present title link
with empty text still yields a record, with an empty name); extraction is
total, and on concrete cards with every optional field absent the price,
raw price, description and link are all `none` rather than an error. -/
theorem extract_names_and_optional_fields :
    (∀ doc : List Dom, ∀ r ∈ parse_cards_old doc, r.name ≠ []) ∧
    (∀ c : Dom, selectTitleLink c = none → card_new c = none) ∧
    parse_cards_new newSchemaDoc =
      [{ name := chars "Toyota", price := none, price_raw := none,
         desc := none, link := none }] ∧
    parse_cards_old oldSchemaDoc =
      [{ name := chars "Lada", price := none, price_raw := none,
         desc := none, link := none }] := by
  refine ⟨?_, ?_, by decide, by decide⟩
  · intro doc r hr
    rw [parse_cards_old] at hr
    obtain ⟨b, hb, hcb⟩ := List.mem_filterMap.mp hr
    rw [card_old] at hcb
    split at hcb
    · cases hcb
    · rename_i n hname
      split at hcb
      · cases hcb
      · rename_i hempty
        simp only [Option.some.injEq] at hcb
        subst hcb
        intro hnil
        have hn : n = [] := hnil
        rw [hn] at hempty
        simp at hempty
  · intro c h
    simp [card_new, h]

theorem extract_names_and_optional_fields_witness :
    ({ name := chars "Lada", price := none, price_raw := none,
       desc := none, link := none } : Record).name ≠ [] ∧
    card_new (Dom.text (chars "x")) = none :=
  ⟨extract_names_and_optional_fields.1 oldSchemaDoc _ (by decide),
   extract_names_and_optional_fields.2.1 (Dom.text (chars "x")) rfl⟩

theorem is_listings_page_mono_witness :
    is_listings_page
      (chars "<script>block: " ++ chars "a-card__title a-card__link" ++ chars "</script>") = true :=
  is_listings_page_mono (chars "<script>block: ") (chars "a-card__title a-card__link")
    (chars "</script>") (by decide)

/-- C7: a network failure on a non-first page is skipped without counting
toward the classification-failure threshold: the iteration only records
the attempted fetch and continues to the next page index with the counter
and the accumulated rows unchanged; consequently, when every fetch fails
with a network error the loop visits every page, never writes a debug
file, never aborts early, and leaves the rows unchanged. -/
theorem network_failure_skips_page :
    (∀ (f : Nat → FetchOutcome) (i : Nat) (rest : List Nat) (blocks : Nat)
       (rows : List Record),
       f i = FetchOutcome.exn →
       crawl_loop f (i :: rest) blocks rows =
         ⟨Event.fetched i :: (crawl_loop f rest blocks rows).events,
          (crawl_loop f rest blocks rows).rows,
          blocks :: (crawl_loop f rest blocks rows).heads⟩) ∧
    (∀ (f : Nat → FetchOutcome), (∀ j, f j = FetchOutcome.exn) →
       ∀ (pages : List Nat) (blocks : Nat) (rows : List Record),
         (crawl_loop f pages blocks rows).rows = rows ∧
         (crawl_loop f pages blocks rows).heads.length = pages.length ∧
         (crawl_loop f pages blocks rows).events = pages.map Event.fetched) := by
  constructor
  · intro f i rest blocks rows hf
    simp [crawl_loop, loop_step, hf]
  · intro f hf pages
    induction pages with
    | nil => intro blocks rows; simp [crawl_loop]
    | cons i rest ih =>
      intro blocks rows
      have h := ih blocks rows
      simp [crawl_loop, loop_step, hf i, h.1, h.2.1, h.2.2]

theorem network_failure_skips_page_witness :
    crawl_loop (fun _ => FetchOutcome.exn) [2] 0 [] =
      ⟨Event.fetched 2 :: (crawl_loop (fun _ => FetchOutcome.exn) [] 0 []).events,
       (crawl_loop (fun _ => FetchOutcome.exn) [] 0 []).rows,
       0 :: (crawl_loop (fun _ => FetchOutcome.exn) [] 0 []).heads⟩ ∧
    (crawl_loop (fun _ => FetchOutcome.exn) [2, 3] 0 []).rows = [] :=
  ⟨network_failure_skips_page.1 (fun _ => FetchOutcome.exn) 2 [] 0 [] rfl,
   (network_failure_skips_page.2 (fun _ => FetchOutcome.exn) (fun _ => rfl) [2, 3] 0 []).1⟩

theorem loop_step_next_blocks_lt (f : Nat → FetchOutcome) (i blocks : Nat)
    (rows : List Record) (blocks' : Nat) (rows' : List Record) (evs : List Event)
    (hlt : blocks < STOP_AFTER_BLOCKS)
    (h : loop_step f i blocks rows = StepRes.next blocks' rows' evs) :
    blocks' < STOP_AFTER_BLOCKS := by
  unfold loop_step at h
  cases hf : f i with
  | exn =>
    rw [hf] at h
    simp only [StepRes.next.injEq] at h
    obtain ⟨h1, -, -⟩ := h
    omega
  | ok status u pg =>
    rw [hf] at h
    cases hl : is_listings_page pg.raw with
    | true =>
      simp only [hl, Bool.not_true, Bool.false_eq_true, if_false, StepRes.next.injEq] at h
      obtain ⟨h1, -, -⟩ := h
      rw [← h1]
      decide
    | false =>
      simp only [hl, Bool.not_false, if_true] at h
      split at h
      · cases h
      · rename_i hge
        simp only [StepRes.next.injEq] at h
        obtain ⟨h1, -, -⟩ := h
        omega

theorem crawl_loop_heads_lt (f : Nat → FetchOutcome) (pages : List Nat) :
    ∀ blocks rows, blocks < STOP_AFTER_BLOCKS →
      ∀ b ∈ (crawl_loop f pages blocks rows).heads, b < STOP_AFTER_BLOCKS := by
  induction pages with
  | nil =>
    intro blocks rows hlt b hb
    simp [crawl_loop] at hb
  | cons i rest ih =>
    intro blocks rows hlt b hb
    cases hstep : loop_step f i blocks rows with
    | stop evs =>
      simp only [crawl_loop, hstep] at hb
      simp at hb
      subst hb
      exact hlt
    | next blocks' rows' evs =>
      simp only [crawl_loop, hstep] at hb
      simp at hb
      rcases hb with rfl | hb
      · exact hlt
      · exact ih blocks' rows'
          (loop_step_next_blocks_lt f i blocks rows blocks' rows' evs hlt hstep) b hb

/-- C1: the consecutive-failure counter resets to zero on every page that
classifies as a listings page, increments by one on every page that fails
classification, and the loop breaks out as soon as the counter reaches
`STOP_AFTER_BLOCKS`; hence, starting below the threshold, the counter is
strictly below `STOP_AFTER_BLOCKS` at the head of every executed
iteration — every reachable loop state. -/
theorem crawl_counter_policy :
    (∀ (f : Nat → FetchOutcome) (pages : List Nat) (blocks : Nat) (rows : List Record),
       blocks < STOP_AFTER_BLOCKS →
       ∀ b ∈ (crawl_loop f pages blocks rows).heads, b < STOP_AFTER_BLOCKS) ∧
    (∀ (f : Nat → FetchOutcome) (i blocks : Nat) (rows : List Record)
       (status : Nat) (u : Str) (pg : Page),
       f i = FetchOutcome.ok status u pg → is_listings_page pg.raw = true →
       loop_step f i blocks rows =
         StepRes.next 0 (rows ++ parse_listings pg.doc)
           ([Event.fetched i] ++
             (if i % 20 = 0 then
               [Event.csvSaved "cars_kolesa_partial.csv" (rows ++ parse_listings pg.doc)]
             else []))) ∧
    (∀ (f : Nat → FetchOutcome) (i blocks : Nat) (rows : List Record)
       (status : Nat) (u : Str) (pg : Page),
       f i = FetchOutcome.ok status u pg → is_listings_page pg.raw = false →
       blocks + 1 < STOP_AFTER_BLOCKS →
       loop_step f i blocks rows =
         StepRes.next (blocks + 1) rows
           [Event.fetched i,
            Event.debugSaved (save_debug_html i status u pg.raw).1
              (save_debug_html i status u pg.raw).2]) ∧
    (∀ (f : Nat → FetchOutcome) (i : Nat) (rest : List Nat) (blocks : Nat)
       (rows : List Record) (status : Nat) (u : Str) (pg : Page),
       f i = FetchOutcome.ok status u pg → is_listings_page pg.raw = false →
       STOP_AFTER_BLOCKS ≤ blocks + 1 →
       crawl_loop f (i :: rest) blocks rows =
         ⟨[Event.fetched i,
           Event.debugSaved (save_debug_html i status u pg.raw).1
             (save_debug_html i status u pg.raw).2],
          rows, [blocks]⟩) := by
  refine ⟨?_, ?_, ?_, ?_⟩
  · intro f pages blocks rows hlt
    exact crawl_loop_heads_lt f pages blocks rows hlt
  · intro f i blocks rows status u pg hf hl
    simp [loop_step, hf, hl]
  · intro f i blocks rows status u pg hf hl hlt
    simp [loop_step, hf, hl, Nat.not_le.mpr hlt]
  · intro f i rest blocks rows status u pg hf hl hge
    have hstep : loop_step f i blocks rows =
        StepRes.stop
          [Event.fetched i,
           Event.debugSaved (save_debug_html i status u pg.raw).1
             (save_debug_html i status u pg.raw).2] := by
      simp [loop_step, hf, hl, hge]
    simp [crawl_loop, hstep]

/-- A concrete page that classifies as a listings page. -/
def listingsPage : Page :=
  ⟨chars "zz a-card__title zz a-card__link zz", newSchemaDoc⟩

/-- A concrete page that fails classification. -/
def blockedPage : Page :=
  ⟨chars "<html>captcha</html>", []⟩

theorem crawl_counter_policy_witness :
    (∀ b ∈ (crawl_loop (fun _ => FetchOutcome.exn) [2, 3] 0 []).heads,
      b < STOP_AFTER_BLOCKS) ∧
    loop_step (fun _ => FetchOutcome.ok 200 (chars "u") listingsPage) 3 2 [] =
      StepRes.next 0 ([] ++ parse_listings listingsPage.doc)
        ([Event.fetched 3] ++
          (if 3 % 20 = 0 then
            [Event.csvSaved "cars_kolesa_partial.csv" ([] ++ parse_listings listingsPage.doc)]
          else [])) ∧
    loop_step (fun _ => FetchOutcome.ok 403 (chars "u") blockedPage) 5 0 [] =
      StepRes.next (0 + 1) []
        [Event.fetched 5,
         Event.debugSaved (save_debug_html 5 403 (chars "u") blockedPage.raw).1
           (save_debug_html 5 403 (chars "u") blockedPage.raw).2] ∧
    crawl_loop (fun _ => FetchOutcome.ok 403 (chars "u") blockedPage) [9] 4 [] =
      ⟨[Event.fetched 9,
        Event.debugSaved (save_debug_html 9 403 (chars "u") blockedPage.raw).1
          (save_debug_html 9 403 (chars "u") blockedPage.raw).2],
       [], [4]⟩ :=
  ⟨crawl_counter_policy.1 (fun _ => FetchOutcome.exn) [2, 3] 0 [] (by decide),
   crawl_counter_policy.2.1 (fun _ => FetchOutcome.ok 200 (chars "u") listingsPage)
     3 2 [] 200 (chars "u") listingsPage rfl (by decide),
   crawl_counter_policy.2.2.1 (fun _ => FetchOutcome.ok 403 (chars "u") blockedPage)
     5 0 [] 403 (chars "u") blockedPage rfl (by decide) (by decide),
   crawl_counter_policy.2.2.2 (fun _ => FetchOutcome.ok 403 (chars "u") blockedPage)
     9 [] 4 [] 403 (chars "u") blockedPage rfl (by decide) (by decide)⟩

/-- C2: when the very first fetched page fails classification the run
terminates immediately — the trace consists of exactly the page-1 fetch
and one debug file, whose content is the raw HTML prefixed with the HTTP
status and final URL; no CSV file is written and no page beyond 1 is
fetched. -/
theorem main_first_page_failure (status : Nat) (url : Str) (pg : Page)
    (f : Nat → FetchOutcome) (h : is_listings_page pg.raw = false) :
    main_run status url pg f =
      [Event.fetched 1,
       Event.debugSaved (debug_fname 1)
         (chars "<!-- status_code=" ++ (Nat.repr status).data ++ chars " final_url=" ++
          url ++ chars " -->" ++ ['\n'] ++ pg.raw)] ∧
    (∀ fn rows, Event.csvSaved fn rows ∉ main_run status url pg f) ∧
    (∀ j, Event.fetched j ∈ main_run status url pg f → j = 1) ∧
    (main_run status url pg f).countP
      (fun e => match e with | Event.debugSaved _ _ => true | _ => false) = 1 := by
  have hm : main_run status url pg f =
      [Event.fetched 1,
       Event.debugSaved (debug_fname 1)
         (chars "<!-- status_code=" ++ (Nat.repr status).data ++ chars " final_url=" ++
          url ++ chars " -->" ++ ['\n'] ++ pg.raw)] := by
    simp [main_run, h, save_debug_html]
  refine ⟨hm, ?_, ?_, ?_⟩
  · intro fn rows
    rw [hm]
    simp
  · intro j hj
    rw [hm] at hj
    simpa using hj
  · rw [hm]
    rfl

theorem main_first_page_failure_witness :
    main_run 403 (chars "https://kolesa.kz/cars/") blockedPage (fun _ => FetchOutcome.exn) =
      [Event.fetched 1,
       Event.debugSaved (debug_fname 1)
         (chars "<!-- status_code=" ++ (Nat.repr 403).data ++ chars " final_url=" ++
          chars "https://kolesa.kz/cars/" ++ chars " -->" ++ ['\n'] ++ blockedPage.raw)] ∧
    (∀ fn rows, Event.csvSaved fn rows ∉
      main_run 403 (chars "https://kolesa.kz/cars/") blockedPage (fun _ => FetchOutcome.exn)) :=
  ⟨(main_first_page_failure 403 (chars "https://kolesa.kz/cars/") blockedPage
      (fun _ => FetchOutcome.exn) (by decide)).1,
   (main_first_page_failure 403 (chars "https://kolesa.kz/cars/") blockedPage
      (fun _ => FetchOutcome.exn) (by decide)).2.1⟩

/-- C9: every `save_to_csv` call overwrites the target file with the full
accumulated record sequence — afterwards the file holds exactly the header
row `name,price,price_raw,desc,link` followed by one data row per record
in accumulation order, independently of the file's previous content (never
an append); other files are untouched. -/
theorem save_to_csv_overwrites (rows : List Record) (filename : String)
    (fs : String → Option (List Str)) :
    save_to_csv rows filename fs filename =
      some (chars "name,price,price_raw,desc,link" :: rows.map csv_row) ∧
    (∀ fs' : String → Option (List Str),
      save_to_csv rows filename fs filename = save_to_csv rows filename fs' filename) ∧
    (∀ other : String, other ≠ filename → save_to_csv rows filename fs other = fs other) := by
  refine ⟨?_, ?_, ?_⟩
  · simp [save_to_csv, csv_lines, csv_header, chars]
  · intro fs'
    simp [save_to_csv]
  · intro other hne
    simp [save_to_csv, hne]

theorem save_to_csv_overwrites_witness :
    save_to_csv [] "cars_kolesa.csv" (fun _ => some [chars "stale"]) "cars_kolesa.csv" =
      some (chars "name,price,price_raw,desc,link" :: ([] : List Record).map csv_row) ∧
    save_to_csv [] "cars_kolesa.csv" (fun _ => some [chars "stale"]) "debug_page_2.html" =
      some [chars "stale"] :=
  ⟨(save_to_csv_overwrites [] "cars_kolesa.csv" (fun _ => some [chars "stale"])).1,
   (save_to_csv_overwrites [] "cars_kolesa.csv"
      (fun _ => some [chars "stale"])).2.2 "debug_page_2.html" (by decide)⟩





